import Mathlib

/-!
# The `echo` demonstration server (`tool/echo/echo.go`)

A shallow embedding of `tool/echo/echo.go`: the channel policy
(`channelSubscribeAllowed`), the connecting handler, the refresh, subscribe,
publish, RPC and presence handlers of a session, the two server publishers and
the startup sequence (`Centrifuge`, `main`), with the properties of them that
the specification states.

The handlers are closures registered on the `centrifuge` node: each receives an
event and a reply callback `cb` and returns nothing.  A handler is embedded as a
function from the event to the list of the effects it performs, in program
order (`Action`): the log lines it prints, the calls it makes to the node and
the invocations of `cb` with their arguments.  What a handler reads from outside
`echo.go` (the clock, the node's view of the session's subscriptions,
`encoding/json`, the results of `node.Publish`) is a field of `World`, so a
theorem about a handler holds for every behaviour of the library.

A Go `string` is a `String`, a `[]byte` a list of bytes, an `int64` an `Int`
taken modulo `2^64` where the program computes with it.
-/

namespace Echo

/-! ## Go values -/

/-- A Go `[]byte`. -/
abbrev Bytes := List UInt8

/-- The UTF-8 encoding of one code point, as `utf8.AppendRune` writes it. -/
def appendRune (c : Char) : Bytes :=
  let n := c.toNat
  if n < 0x80 then [UInt8.ofNat n]
  else if n < 0x800 then [UInt8.ofNat (0xC0 + n / 64), UInt8.ofNat (0x80 + n % 64)]
  else if n < 0x10000 then
    [UInt8.ofNat (0xE0 + n / 4096), UInt8.ofNat (0x80 + n / 64 % 64), UInt8.ofNat (0x80 + n % 64)]
  else
    [UInt8.ofNat (0xF0 + n / 262144), UInt8.ofNat (0x80 + n / 4096 % 64),
     UInt8.ofNat (0x80 + n / 64 % 64), UInt8.ofNat (0x80 + n % 64)]

/-- The conversion `[]byte(s)` of a string to its bytes. -/
def toBytes (s : String) : Bytes :=
  s.data.flatMap appendRune

/-- The value of `x` as an `int64`: Go integer arithmetic wraps around. -/
def wrapInt64 (x : Int) : Int :=
  (x + 2 ^ 63) % 2 ^ 64 - 2 ^ 63

/-- The width of a Go `int`, which the language leaves to the platform: 32 or
64 bits. -/
inductive IntSize where
  | bits32
  | bits64
deriving DecidableEq, Repr

/-- The value of `x` as an `int`: Go integer arithmetic wraps around. -/
def wrapInt : IntSize → Int → Int
  | .bits32, x => (x + 2 ^ 31) % 2 ^ 32 - 2 ^ 31
  | .bits64, x => wrapInt64 x

/-- The largest `int`. -/
def maxInt : IntSize → Int
  | .bits32 => 2 ^ 31 - 1
  | .bits64 => 2 ^ 63 - 1

/-- The range of an `int64`. -/
def inInt64 (x : Int) : Prop :=
  -(2 : Int) ^ 63 ≤ x ∧ x < (2 : Int) ^ 63

instance (x : Int) : Decidable (inInt64 x) := by
  unfold inInt64; infer_instance

/-- The function `strconv.Itoa` (and `strconv.FormatInt(i, 10)`): the decimal
rendering of an integer, with a leading `-` when it is negative. -/
def itoa (i : Int) : String :=
  if i < 0 then "-" ++ Nat.repr i.natAbs else Nat.repr i.toNat

/-- A `time.Duration`, in nanoseconds. -/
abbrev Duration := Int

/-- The constant `time.Second`. -/
def second : Duration := 1000000000

/-- The constant `time.Minute`. -/
def minute : Duration := 60 * second

/-! ## The Engine's types that `echo.go` uses -/

/-- An `error` value: the three client errors of the Engine that `echo.go` names,
or any other error (of `node.Publish`, `centrifuge.New`, `node.Run`). -/
inductive GoError where
  | ErrorPermissionDenied
  | ErrorBadRequest
  | ErrorMethodNotFound
  | other (msg : String)
deriving DecidableEq, Repr

/-- The struct `centrifuge.Credentials`. -/
structure Credentials where
  UserID : String
  ExpireAt : Int
  Info : Bytes
deriving DecidableEq, Repr

/-- The struct `centrifuge.ClientInfo`. -/
structure ClientInfo where
  ClientID : String
  UserID : String
  ConnInfo : Bytes
  ChanInfo : Bytes
deriving DecidableEq, Repr

/-- The fields of `centrifuge.SubscribeOptions` that `echo.go` sets; a field a
literal leaves out has its zero value. -/
structure SubscribeOptions where
  EnableRecovery : Bool := false
  EmitPresence : Bool := false
  EmitJoinLeave : Bool := false
  PushJoinLeave : Bool := false
  Data : Bytes := []
deriving DecidableEq, Repr

/-- The struct `centrifuge.SubscribeReply`. -/
structure SubscribeReply where
  Options : SubscribeOptions := {}
deriving DecidableEq, Repr

/-- The struct `centrifuge.RefreshReply`. -/
structure RefreshReply where
  ExpireAt : Int := 0
deriving DecidableEq, Repr

/-- The struct `centrifuge.PublishResult` (a stream position). -/
structure PublishResult where
  Offset : Nat := 0
  Epoch : String := ""
deriving DecidableEq, Repr

/-- The struct `centrifuge.PublishReply`; `Result` is a pointer, nil in `PublishReply{}`. -/
structure PublishReply where
  Result : Option PublishResult := none
deriving DecidableEq, Repr

/-- The struct `centrifuge.RPCReply`. -/
structure RPCReply where
  Data : Bytes := []
deriving DecidableEq, Repr

/-- The struct `centrifuge.PresenceReply`; `echo.go` only builds the empty one. -/
structure PresenceReply where
deriving DecidableEq, Repr

/-- A Go `map[string]V`: its entries, no key twice, in the order the keys were
first set. -/
abbrev GoMap (V : Type) := List (String × V)

/-- The assignment `m[k] = v`: replaces the entry of `k` when there is one, adds
an entry otherwise. -/
def GoMap.set {V : Type} : GoMap V → String → V → GoMap V
  | [], k, v => [(k, v)]
  | (k', v') :: rest, k, v =>
    if k' = k then (k, v) :: rest else (k', v') :: GoMap.set rest k v

/-- The lookup `m[k]`, `none` when `k` is not a key. -/
def GoMap.get {V : Type} : GoMap V → String → Option V
  | [], _ => none
  | (k', v') :: rest, k => if k' = k then some v' else GoMap.get rest k

/-- A map literal: its elements are set one after the other. -/
def GoMap.literal {V : Type} (entries : List (String × V)) : GoMap V :=
  entries.foldl (fun m kv => GoMap.set m kv.1 kv.2) []

/-- The fields of `centrifuge.ConnectReply` that `echo.go` sets. -/
structure ConnectReply where
  Data : Bytes := []
  ClientSideRefresh : Bool := false
  Subscriptions : GoMap SubscribeOptions := []
deriving DecidableEq, Repr

/-- The struct `centrifuge.RefreshEvent`. -/
structure RefreshEvent where
  ClientSideRefresh : Bool
  Token : String
deriving DecidableEq, Repr

/-- The fields of `centrifuge.SubscribeEvent` a client sends. -/
structure SubscribeEvent where
  Channel : String
  Token : String := ""
  Data : Bytes := []
deriving DecidableEq, Repr

/-- The struct `centrifuge.PublishEvent`; `ClientInfo` is a pointer. -/
structure PublishEvent where
  Channel : String
  Data : Bytes
  ClientInfo : Option ClientInfo := none
deriving DecidableEq, Repr

/-- The struct `centrifuge.RPCEvent`. -/
structure RPCEvent where
  Method : String
  Data : Bytes
deriving DecidableEq, Repr

/-- The struct `centrifuge.PresenceEvent`. -/
structure PresenceEvent where
  Channel : String
deriving DecidableEq, Repr

/-- The struct `centrifuge.ConnectEvent`, of which `echo.go` reads nothing. -/
structure ConnectEvent where
  ClientID : String := ""
  Token : String := ""
  Data : Bytes := []
deriving DecidableEq, Repr

/-- A `context.Context` as `centrifuge.GetCredentials` sees it: the credentials
`centrifuge.SetCredentials` stored in it, if any. -/
structure Context where
  credentials : Option Credentials
deriving DecidableEq, Repr

/-- An option passed to `node.Publish`. -/
inductive PublishOption where
  | WithHistory (size : Nat) (ttl : Duration)
  | WithClientInfo (info : Option ClientInfo)
deriving DecidableEq, Repr

/-- The struct `clientMessage` of `echo.go`.  `Input` is text: the strings
`json.Unmarshal` stores are valid UTF-8. -/
structure clientMessage where
  Timestamp : Int := 0
  Input : String := ""
deriving DecidableEq, Repr

/-! ## Effects -/

/-- An argument of a `log.Printf` call. -/
inductive LogArg where
  | str (s : String)
  | bytes (b : Bytes)
  | err (e : GoError)
deriving DecidableEq, Repr

/-- One effect of a handler or of a publisher, in program order. -/
inductive Action where
  | log (format : String) (args : List LogArg)
  | nodePublish (channel : String) (data : Bytes) (opts : List PublishOption)
  | sleep (d : Duration)
  | cbRefresh (reply : RefreshReply) (err : Option GoError)
  | cbSubscribe (reply : SubscribeReply) (err : Option GoError)
  | cbPublish (reply : PublishReply) (err : Option GoError)
  | cbRPC (reply : RPCReply) (err : Option GoError)
  | cbPresence (reply : PresenceReply) (err : Option GoError)
deriving DecidableEq, Repr

/-- Whether an effect is an invocation of a handler's reply callback `cb`. -/
def Action.isReply : Action → Bool
  | .cbRefresh _ _ => true
  | .cbSubscribe _ _ => true
  | .cbPublish _ _ => true
  | .cbRPC _ _ => true
  | .cbPresence _ _ => true
  | _ => false

/-- How many times a run invoked the reply callback. -/
def replyCount (run : List Action) : Nat :=
  (run.filter Action.isReply).length

/-- The calls of `node.Publish` in a run, in order: channel, payload, options. -/
def publishCalls : List Action → List (String × Bytes × List PublishOption)
  | [] => []
  | .nodePublish ch d os :: rest => (ch, d, os) :: publishCalls rest
  | _ :: rest => publishCalls rest

/-- What a handler of one session reads from outside `echo.go`. -/
structure World where
  /-- The value of `client.UserID()`. -/
  userID : String
  /-- The value of `time.Now().Unix()`, an `int64`. -/
  now : Int
  /-- The value of `time.Now().Year()`. -/
  year : Int
  /-- The method `client.IsSubscribed`. -/
  isSubscribed : String → Bool
  /-- The call `json.Unmarshal(data, &msg)` on a zero `clientMessage`: the decoded
  message, or `none` when it returns an error. -/
  unmarshal : Bytes → Option clientMessage
  /-- The call `json.Marshal(msg)` on a `clientMessage`. -/
  marshal : clientMessage → Bytes
  /-- The two results of `node.Publish`. -/
  publish : String → Bytes → List PublishOption → PublishResult × Option GoError

/-! ## `echo.go` -/

/-- The allow-list `channels`. -/
def channels : List String := ["public:index", "chat:index"]

/-- The function `channelSubscribeAllowed`: `slices.Contains(channels, channel)`. -/
def channelSubscribeAllowed (channel : String) : Bool :=
  channels.contains channel

/-- The handler passed to `node.OnConnecting`.  `GetCredentials` returns a nil
pointer when the context has no credentials, and reading `cred.UserID` then
panics: `none`. -/
def onConnecting (ctx : Context) (_e : ConnectEvent) : Option (ConnectReply × Option GoError) :=
  match ctx.credentials with
  | none => none
  | some cred =>
    some ({ Data := toBytes "\x7b\x7d",
            ClientSideRefresh := false,
            Subscriptions := GoMap.literal
              [ ("#" ++ cred.UserID,
                  { EnableRecovery := true, EmitPresence := false,
                    EmitJoinLeave := false, PushJoinLeave := false }),
                ("notification:index",
                  { EnableRecovery := true, EmitPresence := false,
                    EmitJoinLeave := false, PushJoinLeave := false }) ] }, none)

/-- The handler passed to `client.OnRefresh`. -/
def onRefresh (w : World) (_e : RefreshEvent) : List Action :=
  [ .log "[user %s] refresh connection" [.str w.userID],
    .cbRefresh { ExpireAt := wrapInt64 (w.now + 25) } none ]

/-- The handler passed to `client.OnSubscribe`. -/
def onSubscribe (w : World) (e : SubscribeEvent) : List Action :=
  .log "[user %s] subscribes on %s" [.str w.userID, .str e.Channel] ::
  if !channelSubscribeAllowed e.Channel then
    [ .cbSubscribe {} (some .ErrorPermissionDenied) ]
  else
    [ .cbSubscribe
        { Options :=
            { EnableRecovery := true, EmitPresence := true, EmitJoinLeave := true,
              PushJoinLeave := true, Data := toBytes "\x7b\"msg\": \"welcome\"\x7d" } }
        none ]

/-- The handler passed to `client.OnPublish`. -/
def onPublish (w : World) (e : PublishEvent) : List Action :=
  .log "[user %s] publishes into channel %s: %s"
      [.str w.userID, .str e.Channel, .bytes e.Data] ::
  if !w.isSubscribed e.Channel then
    [ .cbPublish {} (some .ErrorPermissionDenied) ]
  else
    match w.unmarshal e.Data with
    | none => [ .cbPublish {} (some .ErrorBadRequest) ]
    | some msg =>
      let msg : clientMessage := { msg with Timestamp := w.now }
      let data := w.marshal msg
      let opts := [PublishOption.WithHistory 300 minute, PublishOption.WithClientInfo e.ClientInfo]
      let r := w.publish e.Channel data opts
      [ .nodePublish e.Channel data opts,
        .cbPublish { Result := some r.1 } r.2 ]

/-- The handler passed to `client.OnRPC`. -/
def onRPC (w : World) (e : RPCEvent) : List Action :=
  .log "[user %s] sent RPC, data: %s, method: %s"
      [.str w.userID, .bytes e.Data, .str e.Method] ::
  if e.Method = "getCurrentYear" then
    [ .cbRPC { Data := toBytes ("\x7b\"year\": " ++ itoa w.year ++ "\x7d") } none ]
  else if e.Method = "echo" then
    [ .cbRPC { Data := e.Data } none ]
  else
    [ .cbRPC {} (some .ErrorMethodNotFound) ]

/-- The handler passed to `client.OnPresence`. -/
def onPresence (w : World) (e : PresenceEvent) : List Action :=
  .log "[user %s] calls presence on %s" [.str w.userID, .str e.Channel] ::
  if !w.isSubscribed e.Channel then
    [ .cbPresence {} (some .ErrorPermissionDenied) ]
  else
    [ .cbPresence {} none ]

/-- The first publisher goroutine of `Centrifuge`, counter at `i`, run for as
many iterations as `outcomes` has entries: the entry of an iteration is the
error `node.Publish` returns in it.  The counter is a Go `int`, of width `sz`. -/
def publisherALoop (sz : IntSize) (i : Int) : List (Option GoError) → List Action
  | [] => []
  | err :: rest =>
    [ Action.nodePublish "#42" (toBytes ("\x7b\"personal\": \"" ++ itoa i ++ "\"\x7d"))
        [PublishOption.WithHistory 300 minute] ]
    ++ (match err with
        | some e => [Action.log "error publishing to personal channel: %s" [.err e]]
        | none => [])
    ++ [ Action.sleep (1 * minute) ]
    ++ publisherALoop sz (wrapInt sz (i + 1)) rest

/-- The first publisher goroutine: `i := 1`, then the loop. -/
def publisherA (sz : IntSize) (outcomes : List (Option GoError)) : List Action :=
  publisherALoop sz 1 outcomes

/-- The second publisher goroutine of `Centrifuge`, counter at `i`. -/
def publisherBLoop (sz : IntSize) (i : Int) : List (Option GoError) → List Action
  | [] => []
  | err :: rest =>
    [ Action.nodePublish "notification:index"
        (toBytes ("\x7b\"input\": \"Publish from server " ++ itoa i ++ "\"\x7d"))
        [PublishOption.WithHistory 300 minute] ]
    ++ (match err with
        | some e => [Action.log "error publishing to channel: %s" [.err e]]
        | none => [])
    ++ [ Action.sleep (1 * minute) ]
    ++ publisherBLoop sz (wrapInt sz (i + 1)) rest

/-- The second publisher goroutine: `i := 1`, then the loop. -/
def publisherB (sz : IntSize) (outcomes : List (Option GoError)) : List Action :=
  publisherBLoop sz 1 outcomes

/-! ## Startup -/

/-- A `*centrifuge.Node`: the nil pointer, or a node. -/
inductive NodePtr where
  | nil
  | node
deriving DecidableEq, Repr

/-- The two results of `centrifuge.New(config)`.  The Engine returns a node and
a nil error, or, when the construction fails, a nil node and the error. -/
structure NewResult where
  node : NodePtr
  err : Option GoError
deriving DecidableEq, Repr

/-- One step of the startup of the process. -/
inductive StartupStep where
  /-- The assignment `time.Local = time.UTC`. -/
  | setLocalUTC
  /-- The call `centrifuge.New(config)`. -/
  | engineNew (name version : String) (historyMetaTTL : Duration)
  /-- The call `node.OnConnecting(handler)`. -/
  | registerOnConnecting
  /-- The call `node.OnConnect(handler)`. -/
  | registerOnConnect
  /-- The call `node.Run()`. -/
  | engineRun
  /-- A run-time panic nothing recovers: the runtime prints it with the
  goroutine traces and the process exits with status 2. -/
  | runtimePanic (msg : String)
  /-- The printing half of `log.Fatal` and `log.Fatalf`. -/
  | logFatal (format : String) (args : List LogArg)
  /-- The process exits with this status: `os.Exit(code)`, the exit `log.Fatal`
  ends with, or the exit after a panic. -/
  | exit (code : Int)
  /-- The `go` statement starting the first publisher. -/
  | goPublisherA
  /-- The `go` statement starting the second publisher. -/
  | goPublisherB
deriving DecidableEq, Repr

/-- Whether a step prints through `log.Fatal` or `log.Fatalf`. -/
def StartupStep.isLogFatal : StartupStep → Bool
  | .logFatal _ _ => true
  | _ => false

/-- How a function of the startup ends: the process has exited, or the function
returned its two results. -/
inductive Ending where
  | exited (code : Int)
  | returned (ptr : NodePtr) (err : Option GoError)
deriving DecidableEq, Repr

/-- The function `Centrifuge`.  `new` holds the results of `centrifuge.New`,
`runErr` is the error `node.Run` returns. -/
def Centrifuge (new : NewResult) (runErr : Option GoError) : List StartupStep × Ending :=
  -- `node, _ := centrifuge.New(...)`: the error is assigned to the blank identifier,
  -- and only the node is used from here on.
  match new.node with
  | .nil =>
    -- `node.OnConnecting(...)` stores the handler in the node: on the nil node it
    -- dereferences a nil pointer and panics.
    ([ .engineNew "echo" "0.0.0" (24 * 60 * minute),
       .registerOnConnecting,
       .runtimePanic "runtime error: invalid memory address or nil pointer dereference",
       .exit 2 ], .exited 2)
  | .node =>
    let steps := [ StartupStep.engineNew "echo" "0.0.0" (24 * 60 * minute),
                   StartupStep.registerOnConnecting,
                   StartupStep.registerOnConnect,
                   StartupStep.engineRun ]
    match runErr with
    | some err =>
      -- `log.Fatal(err)` prints and exits with status 1; the `return` after it is
      -- not reached.
      (steps ++ [ .logFatal "%v" [.err err], .exit 1 ], .exited 1)
    | none =>
      (steps ++ [ .goPublisherA, .goPublisherB ], .returned .node none)

/-- The function `main` up to the point where the node is handed to the HTTP
server: `none` when the process goes on to serve, the exit status otherwise. -/
def mainStartup (new : NewResult) (runErr : Option GoError) : List StartupStep × Option Int :=
  let r := Centrifuge new runErr
  match r.2 with
  | .exited code => (StartupStep.setLocalUTC :: r.1, some code)
  | .returned _ (some err) =>
    (StartupStep.setLocalUTC :: r.1 ++
      [ .logFatal "Centrifuge start error: %v" [.err err], .exit 1 ], some 1)
  | .returned _ none => (StartupStep.setLocalUTC :: r.1, none)

/-! ## A reference JSON codec for `clientMessage`

`encoding/json` is outside `echo.go`, and the handlers take it from `World`.
The codec below is one instance of it, used where a theorem is applied to a
concrete session.  `refMarshal` writes a `clientMessage` the way `json.Marshal`
does: the two members in the order of the fields, no whitespace, strings with
the escapes of `encoding/json` (HTML escaping on).  `refUnmarshal` reads the
JSON objects whose members are `timestamp` (an integer literal in the `int64`
range) and `input` (a string), in any order and any number of times, with JSON
whitespace, the last occurrence of a member winning and a missing member left
at its zero value, as `json.Unmarshal` does; it rejects every other input, also
the ones `json.Unmarshal` accepts (`null`, members of other names, names in
another letter case). -/

/-- The replacement character U+FFFD (`utf8.RuneError`). -/
def runeError : Char := Char.ofNat 0xFFFD

/-- Whether a byte is a UTF-8 continuation byte. -/
def isCont (b : UInt8) : Bool :=
  0x80 ≤ b.toNat && b.toNat < 0xC0

/-- The function `utf8.DecodeRune` on a non-empty input with first byte `b0`:
the code point and the bytes after it; U+FFFD and one byte consumed when the
encoding is invalid. -/
def decodeRune (b0 : Nat) (rest : Bytes) : Char × Bytes :=
  if b0 < 0x80 then (Char.ofNat b0, rest)
  else if 0xC2 ≤ b0 ∧ b0 < 0xE0 then
    match rest with
    | b1 :: r =>
      if isCont b1 then (Char.ofNat ((b0 - 0xC0) * 64 + (b1.toNat - 0x80)), r)
      else (runeError, rest)
    | _ => (runeError, rest)
  else if 0xE0 ≤ b0 ∧ b0 < 0xF0 then
    match rest with
    | b1 :: b2 :: r =>
      let v := (b0 - 0xE0) * 4096 + (b1.toNat - 0x80) * 64 + (b2.toNat - 0x80)
      if isCont b1 ∧ isCont b2 ∧ 0x800 ≤ v ∧ ¬ (0xD800 ≤ v ∧ v < 0xE000) then (Char.ofNat v, r)
      else (runeError, rest)
    | _ => (runeError, rest)
  else if 0xF0 ≤ b0 ∧ b0 < 0xF5 then
    match rest with
    | b1 :: b2 :: b3 :: r =>
      let v := (b0 - 0xF0) * 262144 + (b1.toNat - 0x80) * 4096 + (b2.toNat - 0x80) * 64
                + (b3.toNat - 0x80)
      if isCont b1 ∧ isCont b2 ∧ isCont b3 ∧ 0x10000 ≤ v ∧ v < 0x110000 then (Char.ofNat v, r)
      else (runeError, rest)
    | _ => (runeError, rest)
  else (runeError, rest)

/-- The digit `"0123456789abcdef"[d]`. -/
def hexDigit (d : Nat) : UInt8 :=
  UInt8.ofNat (if d < 10 then 48 + d else 87 + d)

/-- The value of a hexadecimal digit, of either case. -/
def hexVal (b : UInt8) : Option Nat :=
  let n := b.toNat
  if 48 ≤ n ∧ n ≤ 57 then some (n - 48)
  else if 97 ≤ n ∧ n ≤ 102 then some (n - 87)
  else if 65 ≤ n ∧ n ≤ 70 then some (n - 55)
  else none

/-- The four hexadecimal digits of a `\u` escape (`getu4`, after the `\u`). -/
def getu4 : Bytes → Option (Nat × Bytes)
  | h1 :: h2 :: h3 :: h4 :: rest =>
    match hexVal h1, hexVal h2, hexVal h3, hexVal h4 with
    | some a, some b, some c, some d => some (a * 4096 + b * 256 + c * 16 + d, rest)
    | _, _, _, _ => none
  | _ => none

/-- A `\uXXXX` escape holding a low surrogate, if the input starts with one. -/
def lowSurrogate : Bytes → Option (Nat × Bytes)
  | b :: u :: rest =>
    if b.toNat = 92 ∧ u.toNat = 117 then
      match getu4 rest with
      | some (v, r) => if 0xDC00 ≤ v ∧ v < 0xE000 then some (v, r) else none
      | none => none
    else none
  | _ => none

/-- The escape sequence after a backslash inside a string literal. -/
def readEscape : Bytes → Option (Char × Bytes)
  | [] => none
  | e :: rest =>
    let n := e.toNat
    if n = 34 ∨ n = 92 ∨ n = 47 then some (Char.ofNat n, rest)
    else if n = 98 then some (Char.ofNat 8, rest)
    else if n = 102 then some (Char.ofNat 12, rest)
    else if n = 110 then some (Char.ofNat 10, rest)
    else if n = 114 then some (Char.ofNat 13, rest)
    else if n = 116 then some (Char.ofNat 9, rest)
    else if n = 117 then
      match getu4 rest with
      | none => none
      | some (v, r) =>
        if 0xD800 ≤ v ∧ v < 0xE000 then
          match (if v < 0xDC00 then lowSurrogate r else none) with
          | some (v2, r2) =>
            some (Char.ofNat (0x10000 + (v - 0xD800) * 1024 + (v2 - 0xDC00)), r2)
          | none => some (runeError, r)
        else some (Char.ofNat v, r)
    else none

/-- One character of a string literal that does not start with the closing
quote: an escape, or a code point in UTF-8.  A control character is an error. -/
def readChar : Bytes → Option (Char × Bytes)
  | [] => none
  | b :: rest =>
    let n := b.toNat
    if n = 92 then readEscape rest
    else if n < 0x20 then none
    else some (decodeRune n rest)

/-- The characters of a string literal up to its closing quote, and the bytes
after it; the opening quote is already read. -/
def readString : Nat → Bytes → Option (List Char × Bytes)
  | 0, _ => none
  | _, [] => none
  | fuel + 1, b :: rest =>
    if b.toNat = 34 then some ([], rest)
    else
      match readChar (b :: rest) with
      | none => none
      | some (c, rest') =>
        match readString fuel rest' with
        | none => none
        | some (cs, r) => some (c :: cs, r)

/-- The input without its leading JSON whitespace. -/
def skipSpace : Bytes → Bytes
  | [] => []
  | b :: rest =>
    if b.toNat = 32 ∨ b.toNat = 9 ∨ b.toNat = 10 ∨ b.toNat = 13 then skipSpace rest
    else b :: rest

/-- The leading decimal digits of the input, and the bytes after them. -/
def readDigits : Bytes → List Nat × Bytes
  | [] => ([], [])
  | b :: rest =>
    if 48 ≤ b.toNat ∧ b.toNat ≤ 57 then
      let r := readDigits rest
      ((b.toNat - 48) :: r.1, r.2)
    else ([], b :: rest)

/-- The number a list of decimal digits writes. -/
def digitsValue (ds : List Nat) : Nat :=
  ds.foldl (fun acc d => acc * 10 + d) 0

/-- Whether the input goes on with a fraction or an exponent. -/
def startsFraction : Bytes → Bool
  | [] => false
  | b :: _ => b.toNat = 46 || b.toNat = 101 || b.toNat = 69

/-- An integer literal in the `int64` range: an optional `-`, then `0` or digits
that do not start with `0`, and neither a fraction nor an exponent. -/
def readInt (bs : Bytes) : Option (Int × Bytes) :=
  let neg : Bool := match bs with
    | b :: _ => b.toNat = 45
    | [] => false
  let r := readDigits (if neg then bs.tail else bs)
  if r.1 = [] then none
  else if r.1.head? = some 0 ∧ 1 < r.1.length then none
  else if startsFraction r.2 then none
  else
    let v : Int := if neg then -(digitsValue r.1 : Int) else (digitsValue r.1 : Int)
    if inInt64 v then some (v, r.2) else none

/-- One member `"key": value` of the object, stored into `m`. -/
def readMember (fuel : Nat) (bs : Bytes) (m : clientMessage) : Option (clientMessage × Bytes) :=
  match bs with
  | [] => none
  | q :: rest =>
    if q.toNat = 34 then
      match readString fuel rest with
      | none => none
      | some (key, rest1) =>
        match skipSpace rest1 with
        | [] => none
        | c :: rest2 =>
          if c.toNat = 58 then
            let rest3 := skipSpace rest2
            if key = "timestamp".data then
              match readInt rest3 with
              | none => none
              | some (t, r) => some ({ m with Timestamp := t }, r)
            else if key = "input".data then
              match rest3 with
              | [] => none
              | q2 :: rest4 =>
                if q2.toNat = 34 then
                  match readString fuel rest4 with
                  | none => none
                  | some (s, r) => some ({ m with Input := String.mk s }, r)
                else none
            else none
          else none
    else none

/-- The members of the object up to its closing brace. -/
def readMembers (fuel : Nat) : Nat → Bytes → clientMessage → Option (clientMessage × Bytes)
  | 0, _, _ => none
  | n + 1, bs, m =>
    match readMember fuel bs m with
    | none => none
    | some (m', rest) =>
      match skipSpace rest with
      | [] => none
      | c :: rest' =>
        if c.toNat = 44 then readMembers fuel n (skipSpace rest') m'
        else if c.toNat = 125 then some (m', rest')
        else none

/-- The reference decoder. -/
def refUnmarshal (data : Bytes) : Option clientMessage :=
  match skipSpace data with
  | [] => none
  | c :: rest =>
    if c.toNat = 123 then
      match skipSpace rest with
      | [] => none
      | d :: rest' =>
        if d.toNat = 125 then
          if skipSpace rest' = [] then some {} else none
        else
          match readMembers data.length data.length (d :: rest') {} with
          | none => none
          | some (m, rest'') => if skipSpace rest'' = [] then some m else none
    else none

/-- A string the way `encoding/json` writes one character of it, HTML escaping on. -/
def appendEscaped (c : Char) : Bytes :=
  let n := c.toNat
  if n = 34 ∨ n = 92 then [UInt8.ofNat 92, UInt8.ofNat n]
  else if n = 8 then [UInt8.ofNat 92, UInt8.ofNat 98]
  else if n = 12 then [UInt8.ofNat 92, UInt8.ofNat 102]
  else if n = 10 then [UInt8.ofNat 92, UInt8.ofNat 110]
  else if n = 13 then [UInt8.ofNat 92, UInt8.ofNat 114]
  else if n = 9 then [UInt8.ofNat 92, UInt8.ofNat 116]
  else if n < 32 ∨ n = 60 ∨ n = 62 ∨ n = 38 then
    [UInt8.ofNat 92, UInt8.ofNat 117, UInt8.ofNat 48, UInt8.ofNat 48,
     hexDigit (n / 16), hexDigit (n % 16)]
  else if n = 0x2028 ∨ n = 0x2029 then
    [UInt8.ofNat 92, UInt8.ofNat 117, UInt8.ofNat 50, UInt8.ofNat 48, UInt8.ofNat 50,
     hexDigit (n % 16)]
  else appendRune c

/-- A string literal as `encoding/json` writes it. -/
def quote (s : String) : Bytes :=
  UInt8.ofNat 34 :: (s.data.flatMap appendEscaped ++ [UInt8.ofNat 34])

/-- The output of `json.Marshal` for a `clientMessage`. -/
def refMarshal (m : clientMessage) : Bytes :=
  UInt8.ofNat 123 :: (quote "timestamp" ++ UInt8.ofNat 58 :: (toBytes (itoa m.Timestamp) ++
    UInt8.ofNat 44 :: (quote "input" ++ UInt8.ofNat 58 :: (quote m.Input ++ [UInt8.ofNat 125]))))

/-- The expiry a run of the refresh handler replied with, if it replied without
an error. -/
def refreshExpiry : List Action → Option Int
  | [] => none
  | .cbRefresh reply none :: _ => some reply.ExpireAt
  | _ :: rest => refreshExpiry rest

/-! ## A sample session -/

/-- A session of user 42, subscribed to `chat:index` only, at epoch second
1700000000, with the reference codec and an Engine whose `Publish` succeeds. -/
def sampleWorld : World where
  userID := "42"
  now := 1700000000
  year := 2023
  isSubscribed := fun ch => ch == "chat:index"
  unmarshal := refUnmarshal
  marshal := refMarshal
  publish := fun _ _ _ => ({ Offset := 1, Epoch := "e" }, none)

/-! ## The reference codec decodes what it encodes -/

theorem toNat_ofNat_byte (n : Nat) : (UInt8.ofNat n).toNat = n % 256 := by
  rfl

theorem toNat_ofNat_small (n : Nat) (h : n < 256) : (UInt8.ofNat n).toNat = n := by
  rw [toNat_ofNat_byte]; omega

theorem ofNat_toNat_valid (c : Char) (v : Nat) (h : v = c.toNat) : Char.ofNat v = c := by
  subst h; exact Char.ofNat_toNat c

theorem char_valid (c : Char) : c.toNat < 0xD800 ∨ (0xDFFF < c.toNat ∧ c.toNat < 0x110000) :=
  c.valid

theorem decodeRune_one (n : Nat) (rest : Bytes) (h : n < 0x80) :
    decodeRune n rest = (Char.ofNat n, rest) := by
  simp [decodeRune, h]

theorem decodeRune_two (n0 : Nat) (b1 : UInt8) (rest : Bytes)
    (h0 : 0xC2 ≤ n0 ∧ n0 < 0xE0) (h1 : 0x80 ≤ b1.toNat ∧ b1.toNat < 0xC0) :
    decodeRune n0 (b1 :: rest) = (Char.ofNat ((n0 - 0xC0) * 64 + (b1.toNat - 0x80)), rest) := by
  have a0 : ¬ n0 < 0x80 := by omega
  simp [decodeRune, a0, h0, h1, isCont]

theorem decodeRune_three (n0 : Nat) (b1 b2 : UInt8) (rest : Bytes)
    (h0 : 0xE0 ≤ n0 ∧ n0 < 0xF0) (h1 : 0x80 ≤ b1.toNat ∧ b1.toNat < 0xC0)
    (h2 : 0x80 ≤ b2.toNat ∧ b2.toNat < 0xC0)
    (hv : 0x800 ≤ (n0 - 0xE0) * 4096 + (b1.toNat - 0x80) * 64 + (b2.toNat - 0x80))
    (hs : ¬ (0xD800 ≤ (n0 - 0xE0) * 4096 + (b1.toNat - 0x80) * 64 + (b2.toNat - 0x80) ∧
             (n0 - 0xE0) * 4096 + (b1.toNat - 0x80) * 64 + (b2.toNat - 0x80) < 0xE000)) :
    decodeRune n0 (b1 :: b2 :: rest) =
      (Char.ofNat ((n0 - 0xE0) * 4096 + (b1.toNat - 0x80) * 64 + (b2.toNat - 0x80)), rest) := by
  have a0 : ¬ n0 < 0x80 := by omega
  have a1 : ¬ (0xC2 ≤ n0 ∧ n0 < 0xE0) := by omega
  unfold decodeRune
  rw [if_neg a0, if_neg a1, if_pos h0]
  simp only [isCont, h1, h2, decide_True, Bool.and_self, true_and]
  rw [if_pos ⟨hv, hs⟩]

theorem decodeRune_four (n0 : Nat) (b1 b2 b3 : UInt8) (rest : Bytes)
    (h0 : 0xF0 ≤ n0 ∧ n0 < 0xF5) (h1 : 0x80 ≤ b1.toNat ∧ b1.toNat < 0xC0)
    (h2 : 0x80 ≤ b2.toNat ∧ b2.toNat < 0xC0) (h3 : 0x80 ≤ b3.toNat ∧ b3.toNat < 0xC0)
    (hv : 0x10000 ≤ (n0 - 0xF0) * 262144 + (b1.toNat - 0x80) * 4096 + (b2.toNat - 0x80) * 64
            + (b3.toNat - 0x80) ∧
          (n0 - 0xF0) * 262144 + (b1.toNat - 0x80) * 4096 + (b2.toNat - 0x80) * 64
            + (b3.toNat - 0x80) < 0x110000) :
    decodeRune n0 (b1 :: b2 :: b3 :: rest) =
      (Char.ofNat ((n0 - 0xF0) * 262144 + (b1.toNat - 0x80) * 4096 + (b2.toNat - 0x80) * 64
            + (b3.toNat - 0x80)), rest) := by
  have a0 : ¬ n0 < 0x80 := by omega
  have a1 : ¬ (0xC2 ≤ n0 ∧ n0 < 0xE0) := by omega
  have a2 : ¬ (0xE0 ≤ n0 ∧ n0 < 0xF0) := by omega
  unfold decodeRune
  rw [if_neg a0, if_neg a1, if_neg a2, if_pos h0]
  simp only [isCont, h1, h2, h3, decide_True, Bool.and_self, true_and]
  rw [if_pos hv]

theorem decodeRune_appendRune (c : Char) (rest : Bytes) :
    ∃ b tl, appendRune c ++ rest = b :: tl ∧ (c.toNat < 0x80 → b.toNat = c.toNat) ∧
      (0x80 ≤ c.toNat → 0x80 ≤ b.toNat) ∧ decodeRune b.toNat tl = (c, rest) := by
  have hv := char_valid c
  unfold appendRune
  simp only []
  split_ifs with h1 h2 h3
  · refine ⟨_, _, rfl, ?_, ?_, ?_⟩
    · intro _; rw [toNat_ofNat_small _ (by omega)]
    · intro h; omega
    · rw [toNat_ofNat_small _ (by omega), decodeRune_one _ _ h1, Char.ofNat_toNat]
      rfl
  · refine ⟨_, _, rfl, fun h => absurd h (by omega), ?_, ?_⟩
    · intro _; rw [toNat_ofNat_small _ (by omega)]; omega
    · simp only [List.append_eq, List.cons_append, List.nil_append]
      rw [decodeRune_two _ _ _
        (by rw [toNat_ofNat_small _ (by omega)]; omega)
        (by rw [toNat_ofNat_small _ (by omega)]; omega)]
      rw [toNat_ofNat_small _ (by omega), toNat_ofNat_small _ (by omega)]
      rw [ofNat_toNat_valid c _ (by omega)]
  · refine ⟨_, _, rfl, fun h => absurd h (by omega), ?_, ?_⟩
    · intro _; rw [toNat_ofNat_small _ (by omega)]; omega
    · have e0 := toNat_ofNat_small (0xE0 + c.toNat / 4096) (by omega)
      have e1 := toNat_ofNat_small (0x80 + c.toNat / 64 % 64) (by omega)
      have e2 := toNat_ofNat_small (0x80 + c.toNat % 64) (by omega)
      simp only [List.append_eq, List.cons_append, List.nil_append]
      rw [decodeRune_three _ _ _ _ (by rw [e0]; omega) (by rw [e1]; omega) (by rw [e2]; omega)
        (by rw [e0, e1, e2]; omega) (by rw [e0, e1, e2]; omega)]
      rw [e0, e1, e2, ofNat_toNat_valid c _ (by omega)]
  · refine ⟨_, _, rfl, fun h => absurd h (by omega), ?_, ?_⟩
    · intro _; rw [toNat_ofNat_small _ (by omega)]; omega
    · have e0 := toNat_ofNat_small (0xF0 + c.toNat / 262144) (by omega)
      have e1 := toNat_ofNat_small (0x80 + c.toNat / 4096 % 64) (by omega)
      have e2 := toNat_ofNat_small (0x80 + c.toNat / 64 % 64) (by omega)
      have e3 := toNat_ofNat_small (0x80 + c.toNat % 64) (by omega)
      simp only [List.append_eq, List.cons_append, List.nil_append]
      rw [decodeRune_four _ _ _ _ _ (by rw [e0]; omega) (by rw [e1]; omega) (by rw [e2]; omega)
        (by rw [e3]; omega) (by rw [e0, e1, e2, e3]; omega)]
      rw [e0, e1, e2, e3, ofNat_toNat_valid c _ (by omega)]

theorem hexVal_hexDigit (d : Nat) (h : d < 16) : hexVal (hexDigit d) = some d := by
  unfold hexVal hexDigit
  by_cases h1 : d < 10
  · have e : (UInt8.ofNat (48 + d)).toNat = 48 + d := toNat_ofNat_small _ (by omega)
    simp only [h1, if_true, e]
    rw [if_pos (by omega)]
    congr 1
    omega
  · have e : (UInt8.ofNat (87 + d)).toNat = 87 + d := toNat_ofNat_small _ (by omega)
    simp only [h1, if_false, e]
    rw [if_neg (by omega), if_pos (by omega)]
    congr 1
    omega

theorem hexVal_zero : hexVal (UInt8.ofNat 48) = some 0 := by decide

theorem hexVal_two : hexVal (UInt8.ofNat 50) = some 2 := by decide

theorem readChar_backslash (tl : Bytes) :
    readChar (UInt8.ofNat 92 :: tl) = readEscape tl := by
  have e : (UInt8.ofNat 92).toNat = 92 := rfl
  simp only [readChar, e, if_true]

theorem readEscape_self (n : Nat) (rest : Bytes) (h : n = 34 ∨ n = 92) :
    readEscape (UInt8.ofNat n :: rest) = some (Char.ofNat n, rest) := by
  have e : (UInt8.ofNat n).toNat = n := toNat_ofNat_small _ (by omega)
  simp only [readEscape, e]
  rw [if_pos (by omega)]

theorem readEscape_letter (k v : Nat) (rest : Bytes)
    (h : (k = 98 ∧ v = 8) ∨ (k = 102 ∧ v = 12) ∨ (k = 110 ∧ v = 10) ∨ (k = 114 ∧ v = 13) ∨
         (k = 116 ∧ v = 9)) :
    readEscape (UInt8.ofNat k :: rest) = some (Char.ofNat v, rest) := by
  have e : (UInt8.ofNat k).toNat = k := toNat_ofNat_small _ (by omega)
  simp only [readEscape, e]
  rcases h with ⟨rfl, rfl⟩ | ⟨rfl, rfl⟩ | ⟨rfl, rfl⟩ | ⟨rfl, rfl⟩ | ⟨rfl, rfl⟩ <;> rfl

theorem readEscape_u4 (h1 h2 h3 h4 : UInt8) (a b c d : Nat) (rest : Bytes)
    (e1 : hexVal h1 = some a) (e2 : hexVal h2 = some b) (e3 : hexVal h3 = some c)
    (e4 : hexVal h4 = some d)
    (hs : ¬ (0xD800 ≤ a * 4096 + b * 256 + c * 16 + d ∧ a * 4096 + b * 256 + c * 16 + d < 0xE000)) :
    readEscape (UInt8.ofNat 117 :: h1 :: h2 :: h3 :: h4 :: rest) =
      some (Char.ofNat (a * 4096 + b * 256 + c * 16 + d), rest) := by
  have e : (UInt8.ofNat 117).toNat = 117 := rfl
  simp only [readEscape, e, getu4, e1, e2, e3, e4]
  rw [if_pos trivial, if_neg hs]
  rfl

theorem readChar_plain (b : UInt8) (tl : Bytes) (h1 : b.toNat ≠ 92) (h2 : 32 ≤ b.toNat) :
    readChar (b :: tl) = some (decodeRune b.toNat tl) := by
  simp only [readChar]
  rw [if_neg h1, if_neg (by omega)]

theorem readChar_appendEscaped (c : Char) (rest : Bytes) :
    ∃ b tl, appendEscaped c ++ rest = b :: tl ∧ b.toNat ≠ 34 ∧
      readChar (b :: tl) = some (c, rest) := by
  unfold appendEscaped
  simp only []
  split_ifs with h1 h2 h3 h4 h5 h6 h7 h8
  · refine ⟨_, _, rfl, by decide, ?_⟩
    simp only [List.append_eq, List.cons_append, List.nil_append]
    rw [readChar_backslash, readEscape_self _ _ h1, Char.ofNat_toNat]
  · refine ⟨_, _, rfl, by decide, ?_⟩
    simp only [List.append_eq, List.cons_append, List.nil_append]
    rw [readChar_backslash, readEscape_letter 98 8 _ (by omega), ofNat_toNat_valid c _ (by omega)]
  · refine ⟨_, _, rfl, by decide, ?_⟩
    simp only [List.append_eq, List.cons_append, List.nil_append]
    rw [readChar_backslash, readEscape_letter 102 12 _ (by omega), ofNat_toNat_valid c _ (by omega)]
  · refine ⟨_, _, rfl, by decide, ?_⟩
    simp only [List.append_eq, List.cons_append, List.nil_append]
    rw [readChar_backslash, readEscape_letter 110 10 _ (by omega), ofNat_toNat_valid c _ (by omega)]
  · refine ⟨_, _, rfl, by decide, ?_⟩
    simp only [List.append_eq, List.cons_append, List.nil_append]
    rw [readChar_backslash, readEscape_letter 114 13 _ (by omega), ofNat_toNat_valid c _ (by omega)]
  · refine ⟨_, _, rfl, by decide, ?_⟩
    simp only [List.append_eq, List.cons_append, List.nil_append]
    rw [readChar_backslash, readEscape_letter 116 9 _ (by omega), ofNat_toNat_valid c _ (by omega)]
  · refine ⟨_, _, rfl, by decide, ?_⟩
    simp only [List.append_eq, List.cons_append, List.nil_append]
    rw [readChar_backslash, readEscape_u4 _ _ _ _ 0 0 (c.toNat / 16) (c.toNat % 16) _
      hexVal_zero hexVal_zero (hexVal_hexDigit _ (by omega)) (hexVal_hexDigit _ (by omega))
      (by omega), ofNat_toNat_valid c _ (by omega)]
  · refine ⟨_, _, rfl, by decide, ?_⟩
    simp only [List.append_eq, List.cons_append, List.nil_append]
    rw [readChar_backslash, readEscape_u4 _ _ _ _ 2 0 2 (c.toNat % 16) _
      hexVal_two hexVal_zero hexVal_two (hexVal_hexDigit _ (by omega))
      (by omega), ofNat_toNat_valid c _ (by omega)]
  · obtain ⟨b, tl, hb, hlo, hhi, hdec⟩ := decodeRune_appendRune c rest
    refine ⟨b, tl, hb, ?_, ?_⟩
    · by_cases hc : c.toNat < 0x80
      · rw [hlo hc]; omega
      · have := hhi (by omega); omega
    · rw [readChar_plain b tl ?_ ?_, hdec]
      · by_cases hc : c.toNat < 0x80
        · rw [hlo hc]; omega
        · have := hhi (by omega); omega
      · by_cases hc : c.toNat < 0x80
        · rw [hlo hc]; omega
        · have := hhi (by omega); omega

theorem readString_escaped (cs : List Char) :
    ∀ (fuel : Nat) (rest : Bytes), cs.length < fuel →
      readString fuel (cs.flatMap appendEscaped ++ UInt8.ofNat 34 :: rest) = some (cs, rest) := by
  induction cs with
  | nil =>
    intro fuel rest h
    obtain ⟨f, rfl⟩ : ∃ f, fuel = f + 1 := ⟨fuel - 1, by simp at h; omega⟩
    have e : (UInt8.ofNat 34).toNat = 34 := rfl
    simp [readString, e]
  | cons c cs ih =>
    intro fuel rest h
    obtain ⟨f, rfl⟩ : ∃ f, fuel = f + 1 := ⟨fuel - 1, by simp at h; omega⟩
    obtain ⟨b, tl, hb, hq, hread⟩ :=
      readChar_appendEscaped c (cs.flatMap appendEscaped ++ UInt8.ofNat 34 :: rest)
    rw [List.flatMap_cons, List.append_assoc, hb]
    simp only [readString]
    rw [if_neg hq, hread]
    simp only []
    rw [ih f rest (by simp at h; omega)]

theorem readString_quote (s : String) (fuel : Nat) (rest : Bytes) (h : s.length < fuel) :
    ∃ tl, quote s ++ rest = UInt8.ofNat 34 :: tl ∧ readString fuel tl = some (s.data, rest) := by
  refine ⟨s.data.flatMap appendEscaped ++ UInt8.ofNat 34 :: rest, ?_, readString_escaped _ _ _ h⟩
  simp [quote]


theorem digitsValue_append (L : List Nat) (d : Nat) :
    digitsValue (L ++ [d]) = digitsValue L * 10 + d := by
  simp [digitsValue, List.foldl_append]

theorem toDigitsCore_spec (fuel : Nat) :
    ∀ (n : Nat) (ds : List Char), n < fuel →
      ∃ L : List Nat, Nat.toDigitsCore 10 fuel n ds = L.map Nat.digitChar ++ ds ∧
        (∀ d ∈ L, d < 10) ∧ L ≠ [] ∧ digitsValue L = n ∧ (L.head? = some 0 → L.length = 1) := by
  induction fuel with
  | zero => intro n ds h; omega
  | succ fuel ih =>
    intro n ds h
    unfold Nat.toDigitsCore
    simp only []
    by_cases h0 : n / 10 = 0
    · rw [if_pos h0]
      refine ⟨[n % 10], by simp, ?_, by simp, ?_, by simp⟩
      · intro d hd; simp at hd; omega
      · simp [digitsValue]; omega
    · rw [if_neg h0]
      obtain ⟨L, hL, hlt, hne, hval, hhead⟩ := ih (n / 10) (Nat.digitChar (n % 10) :: ds) (by omega)
      refine ⟨L ++ [n % 10], ?_, ?_, by simp, ?_, ?_⟩
      · rw [hL]; simp
      · intro d hd
        rcases List.mem_append.1 hd with hd | hd
        · exact hlt d hd
        · simp at hd; omega
      · rw [digitsValue_append, hval]; omega
      · intro hh
        exfalso
        cases L with
        | nil => exact hne rfl
        | cons a L' =>
          simp at hh
          subst hh
          have hlen := hhead rfl
          simp at hlen
          subst hlen
          simp [digitsValue] at hval
          omega

theorem appendRune_digitChar (d : Nat) (h : d < 10) :
    appendRune (Nat.digitChar d) = [UInt8.ofNat (48 + d)] := by
  interval_cases d <;> rfl

theorem toBytes_digits (L : List Nat) (h : ∀ d ∈ L, d < 10) :
    (L.map Nat.digitChar).flatMap appendRune = L.map (fun d => UInt8.ofNat (48 + d)) := by
  induction L with
  | nil => rfl
  | cons a L ih =>
    rw [List.map_cons, List.flatMap_cons, appendRune_digitChar a (h a (by simp)),
      ih (fun d hd => h d (by simp [hd]))]
    rfl

theorem readDigits_digits (L : List Nat) (h : ∀ d ∈ L, d < 10) (rest : Bytes) :
    readDigits (L.map (fun d => UInt8.ofNat (48 + d)) ++ UInt8.ofNat 44 :: rest) =
      (L, UInt8.ofNat 44 :: rest) := by
  induction L with
  | nil =>
    have e : (UInt8.ofNat 44).toNat = 44 := rfl
    simp only [List.map_nil, List.nil_append, readDigits, e]
    rw [if_neg (by omega)]
  | cons a L ih =>
    have ha : a < 10 := h a (by simp)
    have e : (UInt8.ofNat (48 + a)).toNat = 48 + a := toNat_ofNat_small _ (by omega)
    simp only [List.map_cons, List.cons_append, readDigits, e]
    rw [if_pos (by omega)]
    simp only [List.append_eq]
    rw [ih (fun d hd => h d (by simp [hd]))]
    simp

theorem repr_digits (n : Nat) :
    ∃ L : List Nat, toBytes (Nat.repr n) = L.map (fun d => UInt8.ofNat (48 + d)) ∧
      (∀ d ∈ L, d < 10) ∧ L ≠ [] ∧ digitsValue L = n ∧ (L.head? = some 0 → L.length = 1) := by
  obtain ⟨L, hL, hlt, hne, hval, hhead⟩ := toDigitsCore_spec (n + 1) n [] (by omega)
  refine ⟨L, ?_, hlt, hne, hval, hhead⟩
  unfold toBytes Nat.repr Nat.toDigits
  rw [hL, List.append_nil]
  exact toBytes_digits L hlt

theorem readInt_digits (neg : Bool) (L : List Nat) (hlt : ∀ d ∈ L, d < 10) (hne : L ≠ [])
    (hhead : L.head? = some 0 → L.length = 1) (rest : Bytes)
    (hr : inInt64 (if neg then -(digitsValue L : Int) else (digitsValue L : Int))) :
    readInt ((if neg then [UInt8.ofNat 45] else []) ++
        (L.map (fun d => UInt8.ofNat (48 + d)) ++ UInt8.ofNat 44 :: rest)) =
      some ((if neg then -(digitsValue L : Int) else (digitsValue L : Int)),
        UInt8.ofNat 44 :: rest) := by
  have e44 : (UInt8.ofNat 44).toNat = 44 := rfl
  have e45 : (UInt8.ofNat 45).toNat = 45 := rfl
  cases L with
  | nil => exact absurd rfl hne
  | cons a L' =>
    have ha : a < 10 := hlt a (by simp)
    have ea : (UInt8.ofNat (48 + a)).toNat = 48 + a := toNat_ofNat_small _ (by omega)
    have hd := readDigits_digits (a :: L') hlt rest
    have hhead' : ¬ ((a :: L').head? = some 0 ∧ 1 < (a :: L').length) := by
      intro ⟨h1, h2⟩
      have := hhead h1
      omega
    cases neg with
    | true =>
      simp only [if_true, List.cons_append, List.nil_append] at hr ⊢
      simp only [readInt, e45, decide_True, if_true, List.tail_cons]
      rw [hd]
      simp only []
      rw [if_neg (by simp), if_neg hhead']
      simp only [startsFraction, e44]
      rw [if_neg (by decide), if_pos hr]
    | false =>
      simp only [List.map_cons, List.cons_append, List.nil_append] at hr hd ⊢
      simp only [Bool.false_eq_true, if_false, List.nil_append] at hr ⊢
      simp only [readInt, ea]
      have : decide (48 + a = 45) = false := by simp; omega
      simp only [this, Bool.false_eq_true, if_false]
      rw [hd]
      simp only []
      rw [if_neg (by simp), if_neg hhead']
      simp only [startsFraction, e44]
      rw [if_neg (by decide), if_pos hr]

theorem toBytes_append (s t : String) : toBytes (s ++ t) = toBytes s ++ toBytes t := by
  simp [toBytes, String.data_append]

theorem readInt_itoa (t : Int) (h : inInt64 t) (rest : Bytes) :
    readInt (toBytes (itoa t) ++ UInt8.ofNat 44 :: rest) = some (t, UInt8.ofNat 44 :: rest) := by
  unfold itoa
  by_cases hneg : t < 0
  · rw [if_pos hneg, toBytes_append]
    obtain ⟨L, hL, hlt, hne, hval, hhead⟩ := repr_digits t.natAbs
    have key := readInt_digits true L hlt hne hhead rest
      (by simp only [if_true]; rw [hval]; have : -(t.natAbs : Int) = t := by omega
          rw [this]; exact h)
    simp only [if_true] at key
    rw [hval] at key
    have e : -(t.natAbs : Int) = t := by omega
    rw [e] at key
    rw [hL]
    exact key
  · rw [if_neg hneg]
    obtain ⟨L, hL, hlt, hne, hval, hhead⟩ := repr_digits t.toNat
    have key := readInt_digits false L hlt hne hhead rest
      (by simp only [Bool.false_eq_true, if_false]; rw [hval]
          have : (t.toNat : Int) = t := by omega
          rw [this]; exact h)
    simp only [Bool.false_eq_true, if_false, List.nil_append] at key
    rw [hval] at key
    have e : (t.toNat : Int) = t := by omega
    rw [e] at key
    rw [hL]
    exact key

theorem skipSpace_byte (k : Nat) (tl : Bytes) (hk : k < 256)
    (hns : k ≠ 32 ∧ k ≠ 9 ∧ k ≠ 10 ∧ k ≠ 13) :
    skipSpace (UInt8.ofNat k :: tl) = UInt8.ofNat k :: tl := by
  have e : (UInt8.ofNat k).toNat = k := toNat_ofNat_small _ hk
  simp only [skipSpace, e]
  rw [if_neg (by omega)]

theorem itoa_bytes_head (t : Int) :
    ∃ k tl, toBytes (itoa t) = UInt8.ofNat k :: tl ∧ (k = 45 ∨ (48 ≤ k ∧ k ≤ 57)) := by
  unfold itoa
  by_cases hneg : t < 0
  · rw [if_pos hneg, toBytes_append]
    exact ⟨45, _, rfl, Or.inl rfl⟩
  · rw [if_neg hneg]
    obtain ⟨L, hL, hlt, hne, -, -⟩ := repr_digits t.toNat
    cases L with
    | nil => exact absurd rfl hne
    | cons a L' =>
      have ha : a < 10 := hlt a (by simp)
      exact ⟨48 + a, _, by rw [hL]; rfl, Or.inr ⟨by omega, by omega⟩⟩

theorem length_le_escaped (cs : List Char) : cs.length ≤ (cs.flatMap appendEscaped).length := by
  induction cs with
  | nil => simp
  | cons c cs ih =>
    obtain ⟨b, tl, hb, -, -⟩ := readChar_appendEscaped c []
    rw [List.append_nil] at hb
    rw [List.flatMap_cons, List.length_append, hb, List.length_cons, List.length_cons]
    omega

theorem length_quote (s : String) : s.length + 2 ≤ (quote s).length := by
  have := length_le_escaped s.data
  simp only [quote, List.length_cons, List.length_append, List.length_nil]
  simp only [String.length]
  omega

/-- The members `refMarshal` writes, without the opening brace. -/
theorem readMembers_marshal (m m0 : clientMessage) (h : inInt64 m.Timestamp)
    (fuel n : Nat) (hf : 9 < fuel) (hs : m.Input.length < fuel) :
    readMembers fuel (n + 2)
      (quote "timestamp" ++ UInt8.ofNat 58 :: (toBytes (itoa m.Timestamp) ++
        UInt8.ofNat 44 :: (quote "input" ++ UInt8.ofNat 58 :: (quote m.Input ++ [UInt8.ofNat 125]))))
      m0 = some (m, []) := by
  obtain ⟨tl1, h1, r1⟩ := readString_quote "timestamp" fuel
    (UInt8.ofNat 58 :: (toBytes (itoa m.Timestamp) ++
        UInt8.ofNat 44 :: (quote "input" ++ UInt8.ofNat 58 :: (quote m.Input ++ [UInt8.ofNat 125]))))
    (by have : "timestamp".length = 9 := by decide
        omega)
  obtain ⟨tl2, h2, r2⟩ := readString_quote "input" fuel
    (UInt8.ofNat 58 :: (quote m.Input ++ [UInt8.ofNat 125]))
    (by have : "input".length = 5 := by decide
        omega)
  obtain ⟨tl3, h3, r3⟩ := readString_quote m.Input fuel [UInt8.ofNat 125] hs
  obtain ⟨k, tlk, hk, hkr⟩ := itoa_bytes_head m.Timestamp
  have e34 : (UInt8.ofNat 34).toNat = 34 := rfl
  have e44 : (UInt8.ofNat 44).toNat = 44 := rfl
  have e58 : (UInt8.ofNat 58).toNat = 58 := rfl
  have e125 : (UInt8.ofNat 125).toNat = 125 := rfl
  have hint := readInt_itoa m.Timestamp h (quote "input" ++ UInt8.ofNat 58 :: (quote m.Input ++ [UInt8.ofNat 125]))
  have sp1 : skipSpace (toBytes (itoa m.Timestamp) ++
        UInt8.ofNat 44 :: (quote "input" ++ UInt8.ofNat 58 :: (quote m.Input ++ [UInt8.ofNat 125]))) =
      toBytes (itoa m.Timestamp) ++
        UInt8.ofNat 44 :: (quote "input" ++ UInt8.ofNat 58 :: (quote m.Input ++ [UInt8.ofNat 125])) := by
    rw [hk, List.cons_append]
    exact skipSpace_byte k _ (by omega) (by omega)
  -- first member
  have mem1 : readMember fuel (UInt8.ofNat 34 :: tl1) m0 =
      some ({ m0 with Timestamp := m.Timestamp },
        UInt8.ofNat 44 :: (quote "input" ++ UInt8.ofNat 58 :: (quote m.Input ++ [UInt8.ofNat 125]))) := by
    simp only [readMember, e34, if_true, r1]
    rw [skipSpace_byte 58 _ (by omega) (by omega)]
    simp only [e58, if_true, sp1, hint]
  have mem2 : readMember fuel (UInt8.ofNat 34 :: tl2) { m0 with Timestamp := m.Timestamp } = some (m, [UInt8.ofNat 125]) := by
    simp only [readMember, e34, if_true, r2]
    rw [skipSpace_byte 58 _ (by omega) (by omega)]
    simp only [e58, if_true]
    rw [h3, skipSpace_byte 34 _ (by omega) (by omega)]
    simp only [e34, if_true, r3]
    rw [if_neg (by decide)]
  rw [h1]
  simp only [readMembers, mem1]
  rw [skipSpace_byte 44 _ (by omega) (by omega)]
  simp only [e44, if_true]
  rw [h2, skipSpace_byte 34 _ (by omega) (by omega)]
  simp only [mem2]
  rw [skipSpace_byte 125 _ (by omega) (by omega)]
  simp only [e125]
  rfl

/-- The reference codec decodes what it encodes. -/
theorem refUnmarshal_refMarshal (m : clientMessage) (h : inInt64 m.Timestamp) :
    refUnmarshal (refMarshal m) = some m := by
  have e123 : (UInt8.ofNat 123).toNat = 123 := rfl
  have e34 : (UInt8.ofNat 34).toNat = 34 := rfl
  obtain ⟨tl1, h1, -⟩ := readString_quote "timestamp" 10
    (UInt8.ofNat 58 :: (toBytes (itoa m.Timestamp) ++
        UInt8.ofNat 44 :: (quote "input" ++ UInt8.ofNat 58 :: (quote m.Input ++ [UInt8.ofNat 125]))))
    (by decide)
  have hlen1 : 11 ≤ (quote "timestamp").length := length_quote "timestamp"
  have hlen2 := length_quote m.Input
  have hlen : ∃ n, (refMarshal m).length = n + 2 ∧ 9 < n + 2 ∧ m.Input.length < n + 2 := by
    refine ⟨(refMarshal m).length - 2, ?_, ?_, ?_⟩ <;>
      simp only [refMarshal, List.length_cons, List.length_append, List.length_nil] <;> omega
  obtain ⟨n, hn, hf, hs⟩ := hlen
  have key := readMembers_marshal m {} h (n + 2) n hf hs
  unfold refUnmarshal
  rw [hn]
  unfold refMarshal
  rw [skipSpace_byte 123 _ (by omega) (by omega)]
  simp only [e123, if_true]
  rw [h1, skipSpace_byte 34 _ (by omega) (by omega)]
  simp only [e34]
  rw [if_neg (by decide), ← h1, key]
  rfl

/-! ## The publishers' counters -/

theorem wrapInt64_of_inInt64 (x : Int) (h : inInt64 x) : wrapInt64 x = x := by
  unfold inInt64 at h
  unfold wrapInt64
  omega

theorem wrapInt_of_le (sz : IntSize) (x : Int) (h0 : 0 ≤ x) (h : x ≤ maxInt sz) :
    wrapInt sz x = x := by
  cases sz <;> simp only [wrapInt, wrapInt64, maxInt] at h ⊢ <;> omega

theorem wrapInt_add (sz : IntSize) (a b : Int) :
    wrapInt sz (wrapInt sz a + b) = wrapInt sz (a + b) := by
  cases sz <;> simp only [wrapInt, wrapInt64] <;> omega

theorem publishCalls_append (a b : List Action) :
    publishCalls (a ++ b) = publishCalls a ++ publishCalls b := by
  induction a with
  | nil => rfl
  | cons x a ih => cases x <;> simp [publishCalls, ih]

theorem publishCalls_publisherALoop_cons (sz : IntSize) (i : Int) (err : Option GoError)
    (rest : List (Option GoError)) :
    publishCalls (publisherALoop sz i (err :: rest)) =
      ("#42", toBytes ("\x7b\"personal\": \"" ++ itoa i ++ "\"\x7d"),
        [PublishOption.WithHistory 300 minute]) ::
      publishCalls (publisherALoop sz (wrapInt sz (i + 1)) rest) := by
  cases err <;>
    simp only [publisherALoop, publishCalls_append, publishCalls, List.append_nil,
      List.nil_append, List.cons_append, List.append_eq]

theorem publishCalls_publisherBLoop_cons (sz : IntSize) (i : Int) (err : Option GoError)
    (rest : List (Option GoError)) :
    publishCalls (publisherBLoop sz i (err :: rest)) =
      ("notification:index",
        toBytes ("\x7b\"input\": \"Publish from server " ++ itoa i ++ "\"\x7d"),
        [PublishOption.WithHistory 300 minute]) ::
      publishCalls (publisherBLoop sz (wrapInt sz (i + 1)) rest) := by
  cases err <;>
    simp only [publisherBLoop, publishCalls_append, publishCalls, List.append_nil,
      List.nil_append, List.cons_append, List.append_eq]

theorem counter_step (sz : IntSize) (i : Int) (k : Nat) :
    (if k = 0 then wrapInt sz (i + 1) else wrapInt sz (wrapInt sz (i + 1) + (k : Int))) =
      wrapInt sz (i + ((k + 1 : Nat) : Int)) := by
  split_ifs with hk
  · subst hk; simp
  · rw [wrapInt_add]; congr 1; push_cast; ring

/-- The call of index `k` (from 0) of a publisher's loop started with the
counter at `i` is made with the counter at `i` plus `k`, wrapped. -/
theorem publishCalls_publisherALoop (sz : IntSize) (outcomes : List (Option GoError)) :
    ∀ (i : Int) (k : Nat), k < outcomes.length →
      (publishCalls (publisherALoop sz i outcomes))[k]? =
        some ("#42",
          toBytes ("\x7b\"personal\": \"" ++
            itoa (if k = 0 then i else wrapInt sz (i + k)) ++ "\"\x7d"),
          [PublishOption.WithHistory 300 minute]) := by
  induction outcomes with
  | nil => intro i k h; simp at h
  | cons err rest ih =>
    intro i k h
    rw [publishCalls_publisherALoop_cons]
    cases k with
    | zero => simp
    | succ k =>
      rw [List.getElem?_cons_succ, ih (wrapInt sz (i + 1)) k (by simpa using h), counter_step]
      simp

theorem publishCalls_publisherBLoop (sz : IntSize) (outcomes : List (Option GoError)) :
    ∀ (i : Int) (k : Nat), k < outcomes.length →
      (publishCalls (publisherBLoop sz i outcomes))[k]? =
        some ("notification:index",
          toBytes ("\x7b\"input\": \"Publish from server " ++
            itoa (if k = 0 then i else wrapInt sz (i + k)) ++ "\"\x7d"),
          [PublishOption.WithHistory 300 minute]) := by
  induction outcomes with
  | nil => intro i k h; simp at h
  | cons err rest ih =>
    intro i k h
    rw [publishCalls_publisherBLoop_cons]
    cases k with
    | zero => simp
    | succ k =>
      rw [List.getElem?_cons_succ, ih (wrapInt sz (i + 1)) k (by simpa using h), counter_step]
      simp

/-- The `k`-th call of `node.Publish` of a publisher started at 1 is made with
the counter at `k`, wrapped. -/
theorem counter_at (sz : IntSize) (k : Nat) (h : 1 ≤ k) :
    (if k - 1 = 0 then (1 : Int) else wrapInt sz (1 + ((k - 1 : Nat) : Int))) =
      wrapInt sz k := by
  split_ifs with hk
  · have : k = 1 := by omega
    subst this
    cases sz <;> decide
  · congr 1; omega

/-! ## The specification's claims -/

theorem channelSubscribeAllowed_iff (c : String) :
    channelSubscribeAllowed c = true ↔ (c = "public:index" ∨ c = "chat:index") := by
  simp only [channelSubscribeAllowed, channels, List.contains_cons, List.contains_nil,
    Bool.or_false, Bool.or_eq_true, beq_iff_eq]

/-- Claim C1: the subscribe handler replies with the permission-denied error
and an empty reply exactly when `channelSubscribeAllowed` is false of the
channel; `channelSubscribeAllowed` is true of exactly the two names
`public:index` and `chat:index`; and for exactly those two names the handler
replies with no error, with recovery, presence, join/leave emission and
join/leave push on and the data `{"msg": "welcome"}`. -/
theorem subscribe_policy (w : World) (e : SubscribeEvent) :
    (channelSubscribeAllowed e.Channel = true ↔
        (e.Channel = "public:index" ∨ e.Channel = "chat:index")) ∧
    (onSubscribe w e =
        [ .log "[user %s] subscribes on %s" [.str w.userID, .str e.Channel],
          .cbSubscribe { Options := { EnableRecovery := false, EmitPresence := false,
                                      EmitJoinLeave := false, PushJoinLeave := false,
                                      Data := [] } }
            (some .ErrorPermissionDenied) ] ↔
        channelSubscribeAllowed e.Channel = false) ∧
    (onSubscribe w e =
        [ .log "[user %s] subscribes on %s" [.str w.userID, .str e.Channel],
          .cbSubscribe
            { Options := { EnableRecovery := true, EmitPresence := true, EmitJoinLeave := true,
                           PushJoinLeave := true, Data := toBytes "\x7b\"msg\": \"welcome\"\x7d" } }
            none ] ↔
        (e.Channel = "public:index" ∨ e.Channel = "chat:index")) := by
  refine ⟨channelSubscribeAllowed_iff _, ?_, ?_⟩
  · cases h : channelSubscribeAllowed e.Channel <;> simp [onSubscribe, h]
  · rw [← channelSubscribeAllowed_iff]
    cases h : channelSubscribeAllowed e.Channel <;> simp [onSubscribe, h]

/-- Claim C2: on a channel the session is subscribed to, when the payload
decodes as a client message with timestamp `t` and input `s` and the clock
reads `now`, the publish handler calls `node.Publish` once, on that channel,
with the payload `json.Marshal` writes for the message with timestamp `now` and
input `s`, a payload in which `t` does not occur and which decodes as that
message.  The JSON codec is any codec that decodes what it encodes. -/
theorem publish_restamps (w : World) (e : PublishEvent) (t : Int) (s : String)
    (hsub : w.isSubscribed e.Channel = true)
    (hdec : w.unmarshal e.Data = some { Timestamp := t, Input := s })
    (hnow : inInt64 w.now)
    (hjson : ∀ m : clientMessage, inInt64 m.Timestamp → w.unmarshal (w.marshal m) = some m) :
    ∃ p, publishCalls (onPublish w e) =
          [(e.Channel, p, [PublishOption.WithHistory 300 minute,
                           PublishOption.WithClientInfo e.ClientInfo])] ∧
      p = w.marshal { Timestamp := w.now, Input := s } ∧
      w.unmarshal p = some { Timestamp := w.now, Input := s } := by
  refine ⟨w.marshal { Timestamp := w.now, Input := s }, ?_, rfl, hjson _ hnow⟩
  simp [onPublish, hsub, hdec, publishCalls]

/-- Claim C2 on the session `sampleWorld`: the payload
`{"timestamp":0,"input":"hi"}` published on `chat:index` is handed to
`node.Publish` as `{"timestamp":1700000000,"input":"hi"}`. -/
theorem publish_restamps_witness :
    sampleWorld.isSubscribed "chat:index" = true ∧
    sampleWorld.unmarshal (toBytes "\x7b\"timestamp\":0,\"input\":\"hi\"\x7d") =
      some { Timestamp := 0, Input := "hi" } ∧
    inInt64 sampleWorld.now ∧
    (∀ m : clientMessage, inInt64 m.Timestamp →
      sampleWorld.unmarshal (sampleWorld.marshal m) = some m) ∧
    (∃ p, publishCalls (onPublish sampleWorld
            { Channel := "chat:index", Data := toBytes "\x7b\"timestamp\":0,\"input\":\"hi\"\x7d" }) =
          [("chat:index", p, [PublishOption.WithHistory 300 minute,
                              PublishOption.WithClientInfo none])] ∧
      p = sampleWorld.marshal { Timestamp := 1700000000, Input := "hi" } ∧
      sampleWorld.unmarshal p = some { Timestamp := 1700000000, Input := "hi" }) ∧
    sampleWorld.marshal { Timestamp := 1700000000, Input := "hi" } =
      toBytes "\x7b\"timestamp\":1700000000,\"input\":\"hi\"\x7d" :=
  ⟨by decide, by decide, by decide, refUnmarshal_refMarshal,
   publish_restamps sampleWorld
     { Channel := "chat:index", Data := toBytes "\x7b\"timestamp\":0,\"input\":\"hi\"\x7d" } 0 "hi"
     (by decide) (by decide) (by decide) refUnmarshal_refMarshal,
   by decide⟩

/-- Claim C3: when the session is not subscribed to the target channel, the
publish handler, whatever the payload, replies with the permission-denied
error and an empty reply, and does not call `node.Publish`. -/
theorem publish_not_subscribed (w : World) (e : PublishEvent)
    (hsub : w.isSubscribed e.Channel = false) :
    onPublish w e =
      [ .log "[user %s] publishes into channel %s: %s"
          [.str w.userID, .str e.Channel, .bytes e.Data],
        .cbPublish { Result := none } (some .ErrorPermissionDenied) ] ∧
    publishCalls (onPublish w e) = [] := by
  simp [onPublish, hsub, publishCalls]

/-- Claim C3 on the session `sampleWorld`, which is not subscribed to `secret:x`. -/
theorem publish_not_subscribed_witness :
    sampleWorld.isSubscribed "secret:x" = false ∧
    onPublish sampleWorld { Channel := "secret:x", Data := toBytes "not-json" } =
      [ .log "[user %s] publishes into channel %s: %s"
          [.str "42", .str "secret:x", .bytes (toBytes "not-json")],
        .cbPublish { Result := none } (some .ErrorPermissionDenied) ] ∧
    publishCalls (onPublish sampleWorld { Channel := "secret:x", Data := toBytes "not-json" }) = [] :=
  ⟨by decide,
   publish_not_subscribed sampleWorld { Channel := "secret:x", Data := toBytes "not-json" }
     (by decide)⟩

/-- Claim C4: on a channel the session is subscribed to, when the payload does
not decode as a client message, the publish handler replies with the
bad-request error and an empty reply, and does not call `node.Publish`. -/
theorem publish_malformed (w : World) (e : PublishEvent)
    (hsub : w.isSubscribed e.Channel = true) (hdec : w.unmarshal e.Data = none) :
    onPublish w e =
      [ .log "[user %s] publishes into channel %s: %s"
          [.str w.userID, .str e.Channel, .bytes e.Data],
        .cbPublish { Result := none } (some .ErrorBadRequest) ] ∧
    publishCalls (onPublish w e) = [] := by
  simp [onPublish, hsub, hdec, publishCalls]

/-- Claim C4 on the session `sampleWorld` and the payload `not-json`. -/
theorem publish_malformed_witness :
    sampleWorld.isSubscribed "chat:index" = true ∧
    sampleWorld.unmarshal (toBytes "not-json") = none ∧
    onPublish sampleWorld { Channel := "chat:index", Data := toBytes "not-json" } =
      [ .log "[user %s] publishes into channel %s: %s"
          [.str "42", .str "chat:index", .bytes (toBytes "not-json")],
        .cbPublish { Result := none } (some .ErrorBadRequest) ] ∧
    publishCalls (onPublish sampleWorld { Channel := "chat:index", Data := toBytes "not-json" }) = [] :=
  ⟨by decide, by decide,
   publish_malformed sampleWorld { Channel := "chat:index", Data := toBytes "not-json" }
     (by decide) (by decide)⟩

/-- Claim C5: the RPC handler answers the method `echo` with no error and the
request's payload, byte for byte, the empty payload included; and it answers
with empty data and the method-not-found error exactly when the method is
neither `getCurrentYear` nor `echo`, compared as strings. -/
theorem rpc_dispatch (w : World) (m : String) (d : Bytes) :
    onRPC w { Method := "echo", Data := d } =
      [ .log "[user %s] sent RPC, data: %s, method: %s" [.str w.userID, .bytes d, .str "echo"],
        .cbRPC { Data := d } none ] ∧
    (onRPC w { Method := m, Data := d } =
      [ .log "[user %s] sent RPC, data: %s, method: %s" [.str w.userID, .bytes d, .str m],
        .cbRPC { Data := [] } (some .ErrorMethodNotFound) ] ↔
      (m ≠ "getCurrentYear" ∧ m ≠ "echo")) := by
  constructor
  · simp [onRPC]
  · by_cases h1 : m = "getCurrentYear"
    · simp [onRPC, h1]
    · by_cases h2 : m = "echo"
      · simp [onRPC, h2]
      · simp [onRPC, h1, h2]

theorem hash_ne_notification (u : String) : "#" ++ u ≠ "notification:index" := by
  intro h
  have := congrArg String.data h
  simp [String.data_append] at this

/-- Claim C6: for a context that carries credentials with user identifier `U`,
the connecting handler returns no error and a reply with data `{}`, client-side
refresh off, and a subscription map of exactly two entries with distinct keys,
`#U` and `notification:index`, each with recovery on and presence, join/leave
emission and join/leave push off. -/
theorem connecting_reply (cred : Credentials) (e : ConnectEvent) :
    onConnecting { credentials := some cred } e =
      some ({ Data := toBytes "\x7b\x7d",
              ClientSideRefresh := false,
              Subscriptions :=
                [ ("#" ++ cred.UserID,
                    { EnableRecovery := true, EmitPresence := false, EmitJoinLeave := false,
                      PushJoinLeave := false, Data := [] }),
                  ("notification:index",
                    { EnableRecovery := true, EmitPresence := false, EmitJoinLeave := false,
                      PushJoinLeave := false, Data := [] }) ] }, none) ∧
    "#" ++ cred.UserID ≠ "notification:index" ∧
    toBytes "\x7b\x7d" = [123, 125] := by
  refine ⟨?_, hash_ne_notification _, by decide⟩
  simp [onConnecting, GoMap.literal, GoMap.set, hash_ne_notification]

/-- Claim C7: a refresh handled at clock reading `t` with `t + 25` in the
`int64` range is answered with no error and the expiry `t + 25`, whatever the
event; so of two refreshes handled at readings `t1 ≤ t2` the second expiry is
not before the first, and an expiry is never before the handling time plus 25. -/
theorem refresh_extends (w1 w2 : World) (e1 e2 : RefreshEvent)
    (h1 : inInt64 (w1.now + 25)) (h2 : inInt64 (w2.now + 25)) (hle : w1.now ≤ w2.now) :
    onRefresh w1 e1 =
      [ .log "[user %s] refresh connection" [.str w1.userID],
        .cbRefresh { ExpireAt := w1.now + 25 } none ] ∧
    onRefresh w2 e2 =
      [ .log "[user %s] refresh connection" [.str w2.userID],
        .cbRefresh { ExpireAt := w2.now + 25 } none ] ∧
    ∀ x1 x2, refreshExpiry (onRefresh w1 e1) = some x1 →
      refreshExpiry (onRefresh w2 e2) = some x2 →
      x1 ≤ x2 ∧ w1.now + 25 ≤ x1 ∧ w2.now + 25 ≤ x2 := by
  have r1 : onRefresh w1 e1 = [ .log "[user %s] refresh connection" [.str w1.userID],
        .cbRefresh { ExpireAt := w1.now + 25 } none ] := by
    simp [onRefresh, wrapInt64_of_inInt64 _ h1]
  have r2 : onRefresh w2 e2 = [ .log "[user %s] refresh connection" [.str w2.userID],
        .cbRefresh { ExpireAt := w2.now + 25 } none ] := by
    simp [onRefresh, wrapInt64_of_inInt64 _ h2]
  refine ⟨r1, r2, ?_⟩
  intro x1 x2 hx1 hx2
  rw [r1] at hx1
  rw [r2] at hx2
  simp only [refreshExpiry, Option.some.injEq] at hx1 hx2
  omega

/-- Claim C7 on two refreshes, handled at 1700000000 and at 1700000030. -/
theorem refresh_extends_witness :
    inInt64 (sampleWorld.now + 25) ∧
    inInt64 ({ sampleWorld with now := 1700000030 }.now + 25) ∧
    sampleWorld.now ≤ { sampleWorld with now := 1700000030 }.now ∧
    refreshExpiry (onRefresh sampleWorld { ClientSideRefresh := false, Token := "" }) =
      some 1700000025 ∧
    refreshExpiry (onRefresh { sampleWorld with now := 1700000030 }
      { ClientSideRefresh := true, Token := "tok" }) = some 1700000055 :=
  have key := refresh_extends sampleWorld { sampleWorld with now := 1700000030 }
    { ClientSideRefresh := false, Token := "" } { ClientSideRefresh := true, Token := "tok" }
    (by decide) (by decide) (by decide)
  ⟨by decide, by decide, by decide, by rw [key.1]; rfl, by rw [key.2.1]; rfl⟩

/-- Claim C8, amended: for every `k` from 1 to the largest value of the
counter, a Go `int` (2^63 - 1 where it is 64 bits wide, 2^31 - 1 where it is
32), and whatever the outcomes of the publishes, the `k`-th publish of the
first publisher goes to `#42` with payload `{"personal": "<k>"}` and the `k`-th
publish of the second goes to `notification:index` with payload
`{"input": "Publish from server <k>"}`, `<k>` the decimal rendering of `k`. -/
theorem publishers_kth (sz : IntSize) (k : Nat) (outA outB : List (Option GoError))
    (hk : 1 ≤ k) (hmax : (k : Int) ≤ maxInt sz) (hA : k ≤ outA.length) (hB : k ≤ outB.length) :
    (publishCalls (publisherA sz outA))[k - 1]? =
      some ("#42", toBytes ("\x7b\"personal\": \"" ++ Nat.repr k ++ "\"\x7d"),
        [PublishOption.WithHistory 300 minute]) ∧
    (publishCalls (publisherB sz outB))[k - 1]? =
      some ("notification:index",
        toBytes ("\x7b\"input\": \"Publish from server " ++ Nat.repr k ++ "\"\x7d"),
        [PublishOption.WithHistory 300 minute]) := by
  have hw : wrapInt sz (k : Int) = (k : Int) := wrapInt_of_le sz _ (by omega) hmax
  have hi : itoa (k : Int) = Nat.repr k := by
    unfold itoa
    rw [if_neg (by omega)]
    rfl
  unfold publisherA publisherB
  rw [publishCalls_publisherALoop sz outA 1 (k - 1) (by omega),
    publishCalls_publisherBLoop sz outB 1 (k - 1) (by omega), counter_at sz k hk, hw, hi]
  exact ⟨rfl, rfl⟩

/-- Claim C8 for the third publish of each publisher, one earlier publish
having failed. -/
theorem publishers_kth_witness :
    (1 ≤ 3 ∧ ((3 : Nat) : Int) ≤ maxInt .bits64) ∧
    (publishCalls (publisherA .bits64 [none, some (.other "no broker"), none]))[3 - 1]? =
      some ("#42", toBytes "\x7b\"personal\": \"3\"\x7d",
        [PublishOption.WithHistory 300 minute]) ∧
    (publishCalls (publisherB .bits64 [some (.other "no broker"), none, none]))[3 - 1]? =
      some ("notification:index", toBytes "\x7b\"input\": \"Publish from server 3\"\x7d",
        [PublishOption.WithHistory 300 minute]) :=
  ⟨by decide,
   publishers_kth .bits64 3 [none, some (.other "no broker"), none]
    [some (.other "no broker"), none, none] (by decide) (by decide) (by decide) (by decide)⟩

/-- Claim C8 as stated fails at `k = 2^63` where `int` is 64 bits wide: after
2^63 - 1 increments the counter has wrapped around to -2^63, and the payload of
the 2^63-th publish of the first publisher is
`{"personal": "-9223372036854775808"}`, not `{"personal": "9223372036854775808"}`. -/
theorem publisher_counter_wraps :
    (publishCalls (publisherA .bits64 (List.replicate (2 ^ 63) none)))[2 ^ 63 - 1]? =
      some ("#42", toBytes "\x7b\"personal\": \"-9223372036854775808\"\x7d",
        [PublishOption.WithHistory 300 minute]) ∧
    (publishCalls (publisherA .bits64 (List.replicate (2 ^ 63) none)))[2 ^ 63 - 1]? ≠
      some ("#42", toBytes ("\x7b\"personal\": \"" ++ Nat.repr (2 ^ 63) ++ "\"\x7d"),
        [PublishOption.WithHistory 300 minute]) := by
  have h : (publishCalls (publisherA .bits64 (List.replicate (2 ^ 63) none)))[2 ^ 63 - 1]? =
      some ("#42", toBytes "\x7b\"personal\": \"-9223372036854775808\"\x7d",
        [PublishOption.WithHistory 300 minute]) := by
    unfold publisherA
    rw [publishCalls_publisherALoop _ _ 1 (2 ^ 63 - 1) (by rw [List.length_replicate]; decide)]
    decide
  refine ⟨h, ?_⟩
  rw [h]
  decide

/-- Claim C9 at its failing input: when `centrifuge.New` fails, returning a nil
node and an error, the startup does not log that error and does not exit with
status 1, whatever the error and whatever `node.Run` would return: the error
is discarded, the call `node.OnConnecting` on the nil node panics, and the
process exits with status 2 before `node.Run` is called. -/
theorem startup_new_error_panics (err : GoError) (runErr : Option GoError) :
    mainStartup { node := .nil, err := some err } runErr =
      ([ .setLocalUTC, .engineNew "echo" "0.0.0" (24 * 60 * minute), .registerOnConnecting,
         .runtimePanic "runtime error: invalid memory address or nil pointer dereference",
         .exit 2 ], some 2) ∧
    (mainStartup { node := .nil, err := some err } runErr).2 ≠ some 1 ∧
    (mainStartup { node := .nil, err := some err } runErr).1.any StartupStep.isLogFatal = false ∧
    StartupStep.engineRun ∉ (mainStartup { node := .nil, err := some err } runErr).1 := by
  refine ⟨rfl, ?_, rfl, ?_⟩
  · simp [mainStartup, Centrifuge]
  · simp [mainStartup, Centrifuge]

/-- A failure of `node.Run` on a constructed node is fatal: it is logged and
the process exits with status 1. -/
theorem startup_run_error_fatal (err : GoError) :
    mainStartup { node := .node, err := none } (some err) =
      ([ .setLocalUTC, .engineNew "echo" "0.0.0" (24 * 60 * minute), .registerOnConnecting,
         .registerOnConnect, .engineRun, .logFatal "%v" [.err err], .exit 1 ], some 1) := by
  rfl

/-- A startup in which neither `centrifuge.New` nor `node.Run` fails starts the
two publishers and goes on to serve. -/
theorem startup_ok :
    mainStartup { node := .node, err := none } none =
      ([ .setLocalUTC, .engineNew "echo" "0.0.0" (24 * 60 * minute), .registerOnConnecting,
         .registerOnConnect, .engineRun, .goPublisherA, .goPublisherB ], none) := by
  rfl

/-- Claim C10: one invocation of the refresh, subscribe, publish, RPC or
presence handler invokes its reply callback exactly once, for every event and
every state of the session and of the Engine. -/
theorem reply_exactly_once (w : World) (e1 : RefreshEvent) (e2 : SubscribeEvent)
    (e3 : PublishEvent) (e4 : RPCEvent) (e5 : PresenceEvent) :
    replyCount (onRefresh w e1) = 1 ∧ replyCount (onSubscribe w e2) = 1 ∧
    replyCount (onPublish w e3) = 1 ∧ replyCount (onRPC w e4) = 1 ∧
    replyCount (onPresence w e5) = 1 := by
  refine ⟨rfl, ?_, ?_, ?_, ?_⟩
  · unfold onSubscribe; split <;> rfl
  · unfold onPublish; split
    · rfl
    · split <;> rfl
  · unfold onRPC; split
    · rfl
    · split <;> rfl
  · unfold onPresence; split <;> rfl

end Echo
